import Mathlib

/-!
# Verification of the parachains inclusion-inherent module

Shallow embedding of `runtime/parachains/src/inclusion_inherent.rs`: the glue
module accepting one inclusion inherent per block (availability bitfields and
backed candidates), sequencing the inclusion, scheduler and upward-message
collaborators, and enforcing the once-per-block guard.

Modelling conventions:
* The external collaborator modules (`inclusion`, `scheduler`, `ump`,
  `configuration`, `frame_system`) are out of scope of this file's source; they
  are modelled as an abstract environment `Collab` of oracle functions.
* Calls this module makes into collaborators, and its own storage write, are
  recorded in an event trace (`Event`), in the order the source performs them.
* Module storage is `MState` (the `Included : Option<()>` item).
* A Rust panic (the `u64` subtraction underflow in `limit_backed_candidates`,
  the `expect` in `create_inherent`, the `panic!` in `on_finalize`) is
  modelled as `Option.none` in the result.
* Bitfields (`SignedAvailabilityBitfields` entries), backed candidates
  (`BackedCandidate<T::Hash>`) and collaborator errors are kept abstract as
  type parameters `α`, `β`, `ε`; core indices, para ids, assignments and
  validator indices are represented by `Nat`.
* Machine integers (`Weight = u64`, `usize`) are modelled as `Nat`, with the
  one fallible operation (subtraction) made explicit; the `as usize` casts are
  the identity on a 64-bit target.
-/

/-- `scheduler::FreedReason`: why an availability core was freed. -/
inductive FreedReason where
  | Concluded
  | TimedOut
deriving DecidableEq, Repr

/-- The dispatch origin as far as `ensure_none` distinguishes it. -/
inductive Origin where
  | None
  | Signed
  | Root
deriving DecidableEq, Repr

/-- Dispatch errors the `inclusion` dispatchable can return: `BadOrigin` from
`ensure_none`, the module's own `Error::TooManyInclusionInherents`, or an
error propagated from a collaborator call (via `?`). -/
inductive DispErr (ε : Type) where
  | badOrigin
  | tooManyInclusionInherents
  | collab (e : ε)
deriving DecidableEq

/-- Module storage (`decl_storage!`): `Included : Option<()>`, whether the
inclusion inherent was included within this block. -/
structure MState where
  included : Option Unit
deriving DecidableEq, Repr

/-- One observable effect of the `inclusion` dispatchable: a call into a
collaborator, the internal candidate truncation, or the final storage write.
`α` is the bitfield type, `β` the backed-candidate type. -/
inductive Event (α β : Type) where
  | processBitfields (bitfields : List α)
  | collectPending
  | schedule (freed : List (Nat × FreedReason))
  | limitCandidates
  | processCandidates (candidates : List β)
  | occupied (cores : List Nat)
  | processUpwardMessages
  | setIncluded
deriving DecidableEq

/-- The collaborator environment: the interface this module consumes from the
`inclusion`, `scheduler`, `configuration` and `frame_system` modules.
Value-returning collaborator calls are oracle functions; effect-only calls
(`schedule`, `occupied`, `process_pending_upward_messages`) appear only as
trace events. -/
structure Collab (α β ε : Type) where
  process_bitfields : List α → (Nat → Option Nat) → Except ε (List Nat)
  core_para : Nat → Option Nat
  availability_timeout_pred : Option (Nat → Bool)
  collect_pending : (Nat → Bool) → List Nat
  scheduled : List Nat
  group_validators : Nat → List Nat
  process_candidates : List β → List Nat → (Nat → List Nat) → Except ε (List Nat)
  backed_candidate_block_weight : Nat
  maximumBlockWeight : Nat
  blockWeightTotal : Nat

/-- `limit_backed_candidates` (lines 146-157): if the configured per-candidate
weight is zero, return the list unchanged; otherwise compute the remaining
block weight `MaximumBlockWeight - block_weight().total()` (a `u64`
subtraction, which underflows — `none` — when consumed weight exceeds the
maximum), divide by the per-candidate weight and truncate the list to that
many candidates. -/
def limit_backed_candidates (w maxW blockW : Nat) (backed_candidates : List β) :
    Option (List β) :=
  if w = 0 then
    some backed_candidates
  else if blockW ≤ maxW then
    some (backed_candidates.take ((maxW - blockW) / w))
  else
    none

/-- Lines 105-106: freed cores from concluded availability, tagged
`Concluded`, chained with freed cores from timed-out availability, tagged
`TimedOut`. -/
def merge_freed (freed_concluded freed_timeout : List Nat) :
    List (Nat × FreedReason) :=
  freed_concluded.map (fun c => (c, FreedReason.Concluded))
    ++ freed_timeout.map (fun c => (c, FreedReason.TimedOut))

/-- Lines 97-102: query the scheduler's availability-timeout oracle; when it
is present, collect the pending cores that time out under it, otherwise no
core is freed by timeout. -/
def freed_timeout_of (env : Collab α β ε) : List Nat :=
  match env.availability_timeout_pred with
  | some pred => env.collect_pending pred
  | none => []

/-- The trace events emitted by the timeout-collection step (lines 97-102):
`collect_pending` is called only when the timeout oracle is present. -/
def timeout_events (env : Collab α β ε) : List (Event α β) :=
  match env.availability_timeout_pred with
  | some _ => [Event.collectPending]
  | none => []

/-- The result of running the `inclusion` dispatchable: the trace of effects
performed, the returned `DispatchResult`, and the module state afterwards. -/
structure RunResult (α β ε : Type) where
  trace : List (Event α β)
  result : Except (DispErr ε) Unit
  state : MState

/-- The `inclusion` dispatchable (lines 81-135): ensure the none origin,
ensure `Included` is not yet set, process bitfields (propagating errors),
collect availability timeouts, schedule the merged freed cores, truncate the
candidate list to the block weight budget, process the candidates
(propagating errors), mark occupied cores, process pending upward messages,
and set `Included`. `none` models the panic when `limit_backed_candidates`
underflows. -/
def inclusion (env : Collab α β ε) (origin : Origin) (signed_bitfields : List α)
    (backed_candidates : List β) (st : MState) : Option (RunResult α β ε) :=
  if origin ≠ Origin.None then
    some ⟨[], .error .badOrigin, st⟩
  else if st.included.isSome then
    some ⟨[], .error .tooManyInclusionInherents, st⟩
  else
    match env.process_bitfields signed_bitfields env.core_para with
    | .error e => some ⟨[Event.processBitfields signed_bitfields], .error (.collab e), st⟩
    | .ok freed_concluded =>
      let freed := merge_freed freed_concluded (freed_timeout_of env)
      match limit_backed_candidates env.backed_candidate_block_weight
          env.maximumBlockWeight env.blockWeightTotal backed_candidates with
      | none => none
      | some limited =>
        match env.process_candidates limited env.scheduled env.group_validators with
        | .error e =>
          some ⟨[Event.processBitfields signed_bitfields] ++ timeout_events env
              ++ [Event.schedule freed, Event.limitCandidates,
                  Event.processCandidates limited],
            .error (.collab e), st⟩
        | .ok occ =>
          some ⟨[Event.processBitfields signed_bitfields] ++ timeout_events env
              ++ [Event.schedule freed, Event.limitCandidates,
                  Event.processCandidates limited, Event.occupied occ,
                  Event.processUpwardMessages, Event.setIncluded],
            .ok (), { included := some () }⟩

/-- `on_finalize` (lines 73-77): take `Included` out of storage and panic
(`none`) when it was absent; on success the storage item is cleared. -/
def on_finalize (st : MState) : Option MState :=
  if st.included.isNone then none else some { included := none }

/-- `should_include_inherent` (lines 163-174). Modelled from the spec: the
block-construction infrastructure invokes this during inherent creation in an
isolated, discarded execution context (that machinery lives outside this
file), so the dry run keeps only whether `inclusion` with the none origin
returned `Ok`, discarding the resulting state and trace; a panic during the
dry run propagates as `none`. -/
def should_include_inherent (env : Collab α β ε) (signed_bitfields : List α)
    (backed_candidates : List β) (st : MState) : Option Bool :=
  (inclusion env Origin.None signed_bitfields backed_candidates st).map
    (fun r => match r.result with | .ok _ => true | .error _ => false)

/-- The outcome of `InherentData::get_data` for the inclusion inherent
identifier: decoding failed, no data under the identifier, or a decoded
`(SignedAvailabilityBitfields, Vec<BackedCandidate>)` payload. -/
inductive InherentDataResult (α β : Type) where
  | decodeFailed
  | absent
  | present (signed_bitfields : List α) (backed_candidates : List β)

/-- `create_inherent` (lines 181-191): `expect` panics (`none`) when the data
under the identifier fails to decode; with no data, no call is built; with a
payload, build `Call::inclusion` with the payload when the dry run accepts it
and with the empty payload otherwise. The built call is represented by its
payload pair. -/
def create_inherent (env : Collab α β ε) (st : MState)
    (data : InherentDataResult α β) : Option (Option (List α × List β)) :=
  match data with
  | .decodeFailed => none
  | .absent => some none
  | .present bf cs =>
    match should_include_inherent env bf cs st with
    | none => none
    | some true => some (some (bf, cs))
    | some false => some (some ([], []))

/-- A concrete environment (over `Nat` bitfields, candidates and errors) whose
collaborator calls all succeed; used to instantiate witnesses. -/
def okCollab : Collab Nat Nat Nat where
  process_bitfields := fun _ _ => .ok [5, 6]
  core_para := fun _ => none
  availability_timeout_pred := some (fun _ => true)
  collect_pending := fun _ => [7]
  scheduled := [1, 2]
  group_validators := fun _ => []
  process_candidates := fun _ _ _ => .ok [3]
  backed_candidate_block_weight := 300
  maximumBlockWeight := 1000
  blockWeightTotal := 100

/-- `okCollab` with failing bitfield processing. -/
def bfFailCollab : Collab Nat Nat Nat :=
  { okCollab with process_bitfields := fun _ _ => .error 42 }

/-- `okCollab` with failing candidate processing and empty lists accepted. -/
def candFailCollab : Collab Nat Nat Nat :=
  { okCollab with
      process_candidates := fun cs _ _ => if cs.isEmpty then .ok [] else .error 9 }

/-- The run result of `inclusion` over `okCollab` with bitfields `[1]` and
candidates `[2]`; used to instantiate witnesses. -/
def okRun : RunResult Nat Nat Nat :=
  ⟨[Event.processBitfields [1], Event.collectPending,
    Event.schedule [(5, FreedReason.Concluded), (6, FreedReason.Concluded),
      (7, FreedReason.TimedOut)],
    Event.limitCandidates, Event.processCandidates [2], Event.occupied [3],
    Event.processUpwardMessages, Event.setIncluded],
   Except.ok (), ⟨some ()⟩⟩

/-- The weight limiter is total while consumed weight is within the maximum
block weight. -/
theorem limit_backed_candidates_isSome {β : Type} (w maxW blockW : Nat)
    (cs : List β) (hle : blockW ≤ maxW) :
    ∃ l, limit_backed_candidates w maxW blockW cs = some l := by
  unfold limit_backed_candidates
  rcases Nat.eq_zero_or_pos w with h | h
  · simp [h]
  · simp [Nat.pos_iff_ne_zero.mp h, hle]

/-- Under the block-weight invariant, the `inclusion` dispatchable never
panics: the weight limiter's subtraction cannot underflow. -/
theorem inclusion_no_panic {α β ε : Type} (env : Collab α β ε) (origin : Origin)
    (bf : List α) (cs : List β) (st : MState)
    (hw : env.blockWeightTotal ≤ env.maximumBlockWeight) :
    (inclusion env origin bf cs st).isSome = true := by
  unfold inclusion
  split
  · rfl
  · split
    · rfl
    · cases env.process_bitfields bf env.core_para with
      | error e => rfl
      | ok fc =>
        obtain ⟨l, hl⟩ := limit_backed_candidates_isSome
          env.backed_candidate_block_weight env.maximumBlockWeight
          env.blockWeightTotal cs hw
        simp only [hl]
        cases env.process_candidates l env.scheduled env.group_validators <;> rfl

/-- C1: when the admission guard `Included` is already set this block, a call
to the `inclusion` dispatchable returns `TooManyInclusionInherents` with an
empty effect trace — no bitfield processing, rescheduling, candidate
processing or message dispatch is performed — and the state unchanged. -/
theorem inclusion_duplicate_admission {α β ε : Type} (env : Collab α β ε)
    (bf : List α) (cs : List β) (st : MState) (h : st.included = some ()) :
    inclusion env Origin.None bf cs st =
      some ⟨[], .error .tooManyInclusionInherents, st⟩ := by
  simp [inclusion, h]

theorem inclusion_duplicate_admission_wit :
    inclusion okCollab Origin.None [1] [2] ⟨some ()⟩ =
      some ⟨[], .error .tooManyInclusionInherents, ⟨some ()⟩⟩ :=
  inclusion_duplicate_admission okCollab [1] [2] ⟨some ()⟩ rfl

/-- C2: `on_finalize` panics exactly when the `Included` guard was never set
during the block, and when it was set it is read-and-reset so the next block
starts without it. -/
theorem on_finalize_guard (st : MState) :
    on_finalize st = if st.included.isSome then some ⟨none⟩ else none := by
  cases h : st.included <;> simp [on_finalize, h]

/-- C4: the weight limiter returns the list unchanged when the configured
per-candidate weight is zero; with positive weight `w` and remaining budget
`B = maxW - blockW` it retains exactly the first `B / w` candidates in their
original order, a list of length `min (length input) (B / w)`; in particular
with remaining budget 1000 and per-candidate weight 300, exactly the first 3
of 5 candidates are retained. -/
theorem limit_backed_candidates_spec {β : Type} (w maxW blockW : Nat)
    (cs : List β) (hB : blockW ≤ maxW) :
    (w = 0 → limit_backed_candidates w maxW blockW cs = some cs) ∧
    (0 < w →
      limit_backed_candidates w maxW blockW cs =
          some (cs.take ((maxW - blockW) / w)) ∧
      (cs.take ((maxW - blockW) / w)).length =
          min cs.length ((maxW - blockW) / w)) ∧
    (maxW - blockW = 1000 → w = 300 → cs.length = 5 →
      limit_backed_candidates w maxW blockW cs = some (cs.take 3) ∧
      (cs.take 3).length = 3) := by
  refine ⟨fun h => by simp [limit_backed_candidates, h],
    fun h => ⟨?_, ?_⟩, fun h1 h2 h3 => ?_⟩
  · simp [limit_backed_candidates, Nat.pos_iff_ne_zero.mp h, hB]
  · simp [List.length_take, Nat.min_comm]
  · subst h2
    refine ⟨?_, ?_⟩
    · have : (maxW - blockW) / 300 = 3 := by omega
      simp [limit_backed_candidates, hB, this]
    · simp [List.length_take, h3]

theorem limit_backed_candidates_spec_wit :
    limit_backed_candidates 300 1000 0 [10, 20, 30, 40, 50] = some [10, 20, 30] :=
  (((limit_backed_candidates_spec 300 1000 0 [10, 20, 30, 40, 50]
      (by decide)).2.2 (by decide) rfl rfl).1).trans (by decide)

/-- C9: the weight limiter's remaining-budget computation has no underflow
guard: with positive per-candidate weight and consumed block weight exceeding
the maximum block weight the subtraction underflows (the function is not
defined there), while under the precondition that consumed weight does not
exceed the maximum — or with weight zero, where the subtraction is never
reached — it is total. -/
theorem limit_backed_candidates_underflow {β : Type} (w maxW blockW : Nat)
    (cs : List β) :
    (0 < w → maxW < blockW →
      limit_backed_candidates w maxW blockW cs = none) ∧
    (blockW ≤ maxW →
      (limit_backed_candidates w maxW blockW cs).isSome = true) ∧
    (w = 0 → limit_backed_candidates w maxW blockW cs = some cs) := by
  refine ⟨fun hw hlt => ?_, fun hle => ?_,
    fun h0 => by simp [limit_backed_candidates, h0]⟩
  · simp [limit_backed_candidates, Nat.pos_iff_ne_zero.mp hw,
      Nat.not_le.mpr hlt]
  · rcases Nat.eq_zero_or_pos w with h | h
    · simp [limit_backed_candidates, h]
    · simp [limit_backed_candidates, Nat.pos_iff_ne_zero.mp h, hle]

theorem limit_backed_candidates_underflow_wit :
    limit_backed_candidates 300 1000 1001 ([] : List Nat) = none :=
  (limit_backed_candidates_underflow 300 1000 1001 []).1 (by decide) (by decide)

/-- C10: `create_inherent` panics when data present under the inclusion
inherent identifier fails to decode, builds no call exactly when no data was
supplied, and for a decoded payload never returns the no-call outcome. -/
theorem create_inherent_decode_behavior {α β ε : Type} (env : Collab α β ε)
    (st : MState) :
    create_inherent env st InherentDataResult.decodeFailed = none ∧
    create_inherent env st InherentDataResult.absent = some none ∧
    ∀ bf cs,
      create_inherent env st (InherentDataResult.present bf cs) ≠ some none := by
  refine ⟨rfl, rfl, fun bf cs => ?_⟩
  simp only [create_inherent]
  cases should_include_inherent env bf cs st with
  | none => simp
  | some b => cases b <;> simp

theorem create_inherent_decode_behavior_wit :
    create_inherent okCollab ⟨none⟩ InherentDataResult.decodeFailed = none ∧
    create_inherent okCollab ⟨none⟩ InherentDataResult.absent = some none ∧
    create_inherent okCollab (⟨none⟩ : MState)
        (InherentDataResult.present [1] [2]) ≠ some none :=
  ⟨(create_inherent_decode_behavior okCollab ⟨none⟩).1,
   (create_inherent_decode_behavior okCollab ⟨none⟩).2.1,
   (create_inherent_decode_behavior okCollab ⟨none⟩).2.2 [1] [2]⟩

/-- C3: for a decoded payload, `create_inherent` returns the payload
unchanged exactly when the dry run succeeds and the empty payload whenever it
fails; the dry run yields only a verdict (its execution context is discarded,
leaving the block state unchanged), and under the block-weight invariant the
adapter never panics, so block construction never fails outright on this
inherent. -/
theorem create_inherent_dry_run {α β ε : Type} (env : Collab α β ε)
    (st : MState) (bf : List α) (cs : List β) :
    create_inherent env st (InherentDataResult.present bf cs) =
      (should_include_inherent env bf cs st).map
        (fun ok => if ok then (bf, cs) else ([], [])) ∧
    (env.blockWeightTotal ≤ env.maximumBlockWeight →
      (create_inherent env st (InherentDataResult.present bf cs)).isSome
        = true) := by
  constructor
  · simp only [create_inherent]
    cases should_include_inherent env bf cs st with
    | none => simp
    | some b => cases b <;> simp
  · intro hw
    have h := inclusion_no_panic env Origin.None bf cs st hw
    simp only [create_inherent]
    cases hs : should_include_inherent env bf cs st with
    | none =>
      exfalso
      unfold should_include_inherent at hs
      cases hi : inclusion env Origin.None bf cs st with
      | none => rw [hi] at h; simp at h
      | some r => rw [hi] at hs; simp at hs
    | some b => cases b <;> rfl

theorem create_inherent_dry_run_wit :
    (create_inherent okCollab ⟨none⟩ (InherentDataResult.present [1] [2]) =
      (should_include_inherent okCollab [1] [2] ⟨none⟩).map
        (fun ok => if ok then ([1], [2]) else ([], []))) ∧
    (create_inherent okCollab (⟨none⟩ : MState)
        (InherentDataResult.present [1] [2])).isSome = true :=
  ⟨(create_inherent_dry_run okCollab ⟨none⟩ [1] [2]).1,
   (create_inherent_dry_run okCollab ⟨none⟩ [1] [2]).2 (by decide)⟩

/-- C5: in any admission reaching the rescheduling step, the freed-core
sequence handed to the scheduler's `schedule` call is `merge_freed`: all
concluded cores, in their original order and tagged `Concluded`, followed by
all timed-out cores, in their original order and tagged `TimedOut`. -/
theorem schedule_freed_order {α β ε : Type} (env : Collab α β ε) (bf : List α)
    (cs : List β) (st : MState) (fc : List Nat)
    (hst : st.included = none)
    (hw : env.blockWeightTotal ≤ env.maximumBlockWeight)
    (hbf : env.process_bitfields bf env.core_para = Except.ok fc) :
    (∃ r, inclusion env Origin.None bf cs st = some r ∧
        Event.schedule (merge_freed fc (freed_timeout_of env)) ∈ r.trace) ∧
    (merge_freed fc (freed_timeout_of env)).map Prod.fst
        = fc ++ freed_timeout_of env ∧
    (merge_freed fc (freed_timeout_of env)).map Prod.snd
        = fc.map (fun _ => FreedReason.Concluded)
          ++ (freed_timeout_of env).map (fun _ => FreedReason.TimedOut) := by
  refine ⟨?_, by simp [merge_freed, Function.comp_def],
    by simp [merge_freed, Function.comp_def]⟩
  obtain ⟨lim, hlim⟩ := limit_backed_candidates_isSome
    env.backed_candidate_block_weight env.maximumBlockWeight
    env.blockWeightTotal cs hw
  cases hc : env.process_candidates lim env.scheduled env.group_validators with
  | error e =>
    refine ⟨⟨[Event.processBitfields bf] ++ timeout_events env
        ++ [Event.schedule (merge_freed fc (freed_timeout_of env)),
            Event.limitCandidates, Event.processCandidates lim],
      .error (.collab e), st⟩, ?_, ?_⟩
    · simp [inclusion, hst, hbf, hlim, hc]
    · simp
  | ok occ =>
    refine ⟨⟨[Event.processBitfields bf] ++ timeout_events env
        ++ [Event.schedule (merge_freed fc (freed_timeout_of env)),
            Event.limitCandidates, Event.processCandidates lim,
            Event.occupied occ, Event.processUpwardMessages,
            Event.setIncluded],
      .ok (), { included := some () }⟩, ?_, ?_⟩
    · simp [inclusion, hst, hbf, hlim, hc]
    · simp

theorem schedule_freed_order_wit :
    (∃ r, inclusion okCollab Origin.None [1] [2] ⟨none⟩ = some r ∧
        Event.schedule (merge_freed [5, 6] (freed_timeout_of okCollab))
          ∈ r.trace) ∧
    (merge_freed [5, 6] (freed_timeout_of okCollab)).map Prod.fst
        = [5, 6] ++ freed_timeout_of okCollab ∧
    (merge_freed [5, 6] (freed_timeout_of okCollab)).map Prod.snd
        = [5, 6].map (fun _ => FreedReason.Concluded)
          ++ (freed_timeout_of okCollab).map (fun _ => FreedReason.TimedOut) :=
  schedule_freed_order okCollab [1] [2] ⟨none⟩ [5, 6] rfl (by decide) rfl

/-- C6: a failing bitfield-processing call aborts the dispatchable with that
collaborator's error before any further effect, and a failing
candidate-processing call aborts it with no occupancy marking, message
dispatch or guard write; in both cases the module state — in particular the
`Included` guard — is unchanged, so the block fails finalization. -/
theorem inclusion_error_aborts {α β ε : Type} (env : Collab α β ε)
    (bf : List α) (cs : List β) (st : MState) (e : ε)
    (hst : st.included = none) :
    (env.process_bitfields bf env.core_para = Except.error e →
      inclusion env Origin.None bf cs st =
        some ⟨[Event.processBitfields bf], .error (.collab e), st⟩ ∧
      on_finalize st = none) ∧
    (∀ fc lim, env.process_bitfields bf env.core_para = Except.ok fc →
      limit_backed_candidates env.backed_candidate_block_weight
          env.maximumBlockWeight env.blockWeightTotal cs = some lim →
      env.process_candidates lim env.scheduled env.group_validators
          = Except.error e →
      inclusion env Origin.None bf cs st =
        some ⟨[Event.processBitfields bf] ++ timeout_events env
            ++ [Event.schedule (merge_freed fc (freed_timeout_of env)),
                Event.limitCandidates, Event.processCandidates lim],
          .error (.collab e), st⟩ ∧
      on_finalize st = none) := by
  constructor
  · intro hbf
    exact ⟨by simp [inclusion, hst, hbf], by simp [on_finalize, hst]⟩
  · intro fc lim hbf hlim hc
    exact ⟨by simp [inclusion, hst, hbf, hlim, hc], by simp [on_finalize, hst]⟩

theorem inclusion_error_aborts_wit :
    inclusion bfFailCollab Origin.None [1] [2] ⟨none⟩ =
      some ⟨[Event.processBitfields [1]], .error (.collab 42), ⟨none⟩⟩ ∧
    on_finalize (⟨none⟩ : MState) = none :=
  (inclusion_error_aborts bfFailCollab [1] [2] ⟨none⟩ 42 rfl).1 rfl

/-- C7: when the dry run rejects a payload (with the guard unset and the none
origin, the only failure sources are the bitfield- and candidate-processing
collaborator calls), the adapter selects the empty payload, and the real
`inclusion` call with that empty payload in the same block succeeds and sets
the guard — given that the collaborators accept empty input and the
block-weight invariant holds. -/
theorem dry_run_fallback_succeeds {α β ε : Type} (env : Collab α β ε)
    (bf : List α) (cs : List β) (st : MState) (l1 l2 : List Nat)
    (hst : st.included = none)
    (hw : env.blockWeightTotal ≤ env.maximumBlockWeight)
    (hfail : should_include_inherent env bf cs st = some false)
    (hbfE : env.process_bitfields [] env.core_para = Except.ok l1)
    (hcsE : env.process_candidates [] env.scheduled env.group_validators
        = Except.ok l2) :
    create_inherent env st (InherentDataResult.present bf cs)
        = some (some ([], [])) ∧
    inclusion env Origin.None [] [] st =
      some ⟨[Event.processBitfields []] ++ timeout_events env
          ++ [Event.schedule (merge_freed l1 (freed_timeout_of env)),
              Event.limitCandidates, Event.processCandidates [],
              Event.occupied l2, Event.processUpwardMessages,
              Event.setIncluded],
        .ok (), { included := some () }⟩ := by
  constructor
  · simp [create_inherent, hfail]
  · have hlim : limit_backed_candidates env.backed_candidate_block_weight
        env.maximumBlockWeight env.blockWeightTotal ([] : List β)
          = some [] := by
      unfold limit_backed_candidates
      rcases Nat.eq_zero_or_pos env.backed_candidate_block_weight with h | h
      · simp [h]
      · simp [Nat.pos_iff_ne_zero.mp h, hw]
    simp [inclusion, hst, hbfE, hlim, hcsE]

theorem dry_run_fallback_succeeds_wit :
    create_inherent candFailCollab ⟨none⟩ (InherentDataResult.present [1] [2])
        = some (some ([], [])) ∧
    inclusion candFailCollab Origin.None [] [] ⟨none⟩ =
      some ⟨[Event.processBitfields []] ++ timeout_events candFailCollab
          ++ [Event.schedule
                (merge_freed [5, 6] (freed_timeout_of candFailCollab)),
              Event.limitCandidates, Event.processCandidates [],
              Event.occupied [], Event.processUpwardMessages,
              Event.setIncluded],
        .ok (), { included := some () }⟩ :=
  dry_run_fallback_succeeds candFailCollab [1] [2] ⟨none⟩ [5, 6] []
    rfl (by decide) rfl rfl rfl

/-- C8: every successful run of the `inclusion` dispatchable performs exactly
the fixed effect sequence — bitfield processing, timeout collection,
rescheduling of the merged freed cores, weight limiting, candidate
processing, occupancy marking, upward-message dispatch, and setting the
admission guard — with no step skipped or reordered. -/
theorem inclusion_effect_order {α β ε : Type} (env : Collab α β ε)
    (bf : List α) (cs : List β) (st : MState) (r : RunResult α β ε)
    (h : inclusion env Origin.None bf cs st = some r)
    (hok : r.result = Except.ok ()) :
    ∃ fc lim occ,
      env.process_bitfields bf env.core_para = Except.ok fc ∧
      limit_backed_candidates env.backed_candidate_block_weight
          env.maximumBlockWeight env.blockWeightTotal cs = some lim ∧
      env.process_candidates lim env.scheduled env.group_validators
          = Except.ok occ ∧
      r.trace = [Event.processBitfields bf] ++ timeout_events env
          ++ [Event.schedule (merge_freed fc (freed_timeout_of env)),
              Event.limitCandidates, Event.processCandidates lim,
              Event.occupied occ, Event.processUpwardMessages,
              Event.setIncluded] ∧
      r.state = { included := some () } := by
  cases hstc : st.included with
  | some u =>
    simp [inclusion, hstc] at h
    rw [← h] at hok
    simp at hok
  | none =>
    cases hbf : env.process_bitfields bf env.core_para with
    | error e =>
      simp [inclusion, hstc, hbf] at h
      rw [← h] at hok
      simp at hok
    | ok fc =>
      cases hlim : limit_backed_candidates env.backed_candidate_block_weight
          env.maximumBlockWeight env.blockWeightTotal cs with
      | none => simp [inclusion, hstc, hbf, hlim] at h
      | some lim =>
        cases hc : env.process_candidates lim env.scheduled
            env.group_validators with
        | error e =>
          simp [inclusion, hstc, hbf, hlim, hc] at h
          rw [← h] at hok
          simp at hok
        | ok occ =>
          simp [inclusion, hstc, hbf, hlim, hc] at h
          exact ⟨fc, lim, occ, rfl, rfl, hc, by rw [← h]; rfl, by rw [← h]⟩

theorem inclusion_effect_order_wit :
    ∃ fc lim occ,
      okCollab.process_bitfields [1] okCollab.core_para = Except.ok fc ∧
      limit_backed_candidates okCollab.backed_candidate_block_weight
          okCollab.maximumBlockWeight okCollab.blockWeightTotal [2]
          = some lim ∧
      okCollab.process_candidates lim okCollab.scheduled
          okCollab.group_validators = Except.ok occ ∧
      okRun.trace = [Event.processBitfields [1]] ++ timeout_events okCollab
          ++ [Event.schedule (merge_freed fc (freed_timeout_of okCollab)),
              Event.limitCandidates, Event.processCandidates lim,
              Event.occupied occ, Event.processUpwardMessages,
              Event.setIncluded] ∧
      okRun.state = { included := some () } :=
  inclusion_effect_order okCollab [1] [2] ⟨none⟩ okRun rfl rfl
